import Mathlib

/-!
# Verification of the `calr` calendar formatter (`src/calr/src/lib.rs`)

Shallow embedding of the month-grid formatter, the year view and the
argument parsers of the `calr` tool, together with proofs about the
frozen specification claims.

Modelling conventions:
* `chrono::NaiveDate` is embedded as a `(year, month, day)` triple of
  naturals over the proleptic Gregorian calendar.  `NaiveDate::from_ymd_opt`
  and `NaiveDate::pred_opt` become `Option`-valued functions; chrono's
  year bound (±262143, never reached for years in [1, 10000]) is replaced
  by the natural-number floor at year 0.
* `Weekday::num_days_from_sunday` is embedded through a day-count from
  0001-01-01 (a Monday in the proleptic Gregorian calendar), reduced mod 7.
* Machine integers (`i32`, `u32`, `usize`) are embedded as `Nat`/`Int`;
  the `str::parse` implementations for `u32`/`i32` are embedded with their
  sign/digits/range grammar made explicit.
* `Result<T, Box<dyn Error>>` becomes `Except String T`, carrying the
  exact formatted error message; a panicking `unwrap` becomes an `Option`
  that the surrounding function propagates as `none`.
* The `regex` crate call in `parse_month` (pattern `"^" ++ input`,
  case-insensitive) is embedded for the pattern fragment actually
  exercised by the theorems below: patterns made of literal characters
  (matched case-insensitively) and the any-character metacharacter `.`,
  anchored at the start of the text.  Patterns that the regex crate would
  reject at build time are outside the scope of every theorem below.
-/

/-- Embedding of `chrono::NaiveDate`: a (year, month, day) triple. -/
structure Date where
  year : Nat
  month : Nat
  day : Nat
deriving DecidableEq, Repr

/-- Gregorian leap-year rule, as used by chrono. -/
def isLeapYear (y : Nat) : Bool :=
  y % 4 == 0 && (y % 100 != 0 || y % 400 == 0)

/-- Number of days in a month of a given year (proleptic Gregorian). -/
def daysInMonth (y m : Nat) : Nat :=
  if m = 2 then (if isLeapYear y then 29 else 28)
  else if m = 4 ∨ m = 6 ∨ m = 9 ∨ m = 11 then 30
  else 31

/-- Days strictly before month `m` (1-based) in year `y`. -/
def daysBeforeMonth (y : Nat) : Nat → Nat
  | 0 => 0
  | 1 => 0
  | m + 2 => daysBeforeMonth y (m + 1) + daysInMonth y (m + 1)

/-- Day count of a date, with 0001-01-01 ↦ 1 (proleptic Gregorian). -/
def dayNumber (d : Date) : Nat :=
  365 * (d.year - 1) + (d.year - 1) / 4 - (d.year - 1) / 100 + (d.year - 1) / 400
    + daysBeforeMonth d.year d.month + d.day

/-- Embedding of `Weekday::num_days_from_sunday` for the weekday of a date:
0001-01-01 was a Monday, so the day count mod 7 gives Sunday ↦ 0 … Saturday ↦ 6. -/
def num_days_from_sunday (d : Date) : Nat :=
  dayNumber d % 7

/-- Embedding of `NaiveDate::from_ymd_opt`. -/
def from_ymd_opt (y m d : Nat) : Option Date :=
  if 1 ≤ m ∧ m ≤ 12 ∧ 1 ≤ d ∧ d ≤ daysInMonth y m then some ⟨y, m, d⟩ else none

/-- Embedding of `NaiveDate::pred_opt` (previous calendar day). -/
def pred_opt (dt : Date) : Option Date :=
  if 2 ≤ dt.day then some ⟨dt.year, dt.month, dt.day - 1⟩
  else if 2 ≤ dt.month then some ⟨dt.year, dt.month - 1, daysInMonth dt.year (dt.month - 1)⟩
  else if 1 ≤ dt.year then some ⟨dt.year - 1, 12, 31⟩
  else none

/-- Fuel-driven digit printer; the fuel only needs to exceed the digit
count, so calling it with the number itself as fuel is always enough. -/
def natStrGo : Nat → Nat → String
  | 0, n => String.mk [Nat.digitChar (n % 10)]
  | fuel + 1, n =>
    if n < 10 then String.mk [Nat.digitChar n]
    else natStrGo fuel (n / 10) ++ String.mk [Nat.digitChar (n % 10)]

/-- Decimal digits of a natural number (`usize::to_string` / `Display for u32`). -/
def natStr (n : Nat) : String := natStrGo n n

/-- `Display` for `i32` (used in the `parse_year` error message). -/
def intStr (i : Int) : String :=
  if i < 0 then "-" ++ natStr i.natAbs else natStr i.natAbs

/-- Embedding of `str::repeat`: `n` copies of `s` concatenated. -/
def strRepeat (s : String) : Nat → String
  | 0 => ""
  | n + 1 => strRepeat s n ++ s

/-- `format!("{:>2}", day)`: right-justify in a 2-character field. -/
def rightJust2 (d : Nat) : String :=
  if (natStr d).length < 2 then strRepeat " " (2 - (natStr d).length) ++ natStr d
  else natStr d

/-- The ANSI reverse-video introducer emitted by `ansi_term::Style::new().reverse()`. -/
def escRev : String := "\x1b[7m"

/-- The ANSI style-reset emitted after a painted span. -/
def escReset : String := "\x1b[0m"

/-- Embedding of `print_day` from `src/calr/src/lib.rs`: the 2-character day
cell, wrapped in reverse video when `today` is exactly the rendered day. -/
def print_day (today : Date) (year month day : Nat) : String :=
  let num_str := natStr day
  if today.year = year ∧ today.month = month ∧ today.day = day then
    if num_str.length = 1 then escRev ++ (" " ++ num_str) ++ escReset
    else escRev ++ num_str ++ escReset
  else rightJust2 day

/-- The `MONTHS` table from `src/calr/src/lib.rs`. -/
def MONTHS : List String :=
  ["January", "February", "March", "April", "May", "June",
   "July", "August", "September", "October", "November", "December"]

/-- `MONTHS[(month - 1) as usize]`. -/
def month_name (month : Nat) : String := MONTHS.getD (month - 1) ""

/-- The title text of a month grid (month name, optionally followed by the year). -/
def month_title (year month : Nat) (print_year : Bool) : String :=
  if print_year then month_name month ++ " " ++ natStr year else month_name month

/-- The first line of a month grid, as computed in `format_month`. -/
def top_line (year month : Nat) (print_year : Bool) : String :=
  let title := month_title year month print_year
  let len := title.length
  strRepeat " " (11 - (len + 1) / 2 - 1) ++ title ++ strRepeat " " (12 + (len + 1) / 2 - len)

/-- The fixed weekday-header line of a month grid. -/
def week_header : String := "Su Mo Tu We Th Fr Sa  "

/-- Embedding of `last_day_in_month`: the day before the first day of the
following month. -/
def last_day_in_month (year month : Nat) : Option Date :=
  if month = 12 then (from_ymd_opt (year + 1) 1 1).bind pred_opt
  else (from_ymd_opt year (month + 1) 1).bind pred_opt

/-- One iteration of the day loop of `format_month`, for day `i`: the loop
state is the list of flushed week rows plus the pending partial row.  A `none`
state records that an internal `unwrap` would have panicked. -/
def dayStep (year month last_day : Nat) (today : Date)
    (st : Option (List String × String)) (i : Nat) : Option (List String × String) :=
  st.bind fun s =>
    (from_ymd_opt year month i).bind fun date =>
      let days := s.1
      let line := s.2
      let weekday := num_days_from_sunday date
      if i = 1 then
        let line1 := strRepeat "   " weekday ++ print_day today year month i ++ " "
        if weekday = 6 then some (days ++ [line1 ++ " "], "")
        else some (days, line1)
      else if i = last_day then
        let line1 := line ++ print_day today year month i ++ " "
        let line2 := line1 ++ strRepeat "   " (6 - weekday) ++ " "
        some (days ++ [line2], "")
      else
        let line1 := line ++ print_day today year month i ++ " "
        if weekday = 6 then some (days ++ [line1 ++ " "], "")
        else some (days, line1)

/-- Embedding of `format_month`: the grid of lines for one month, or `none`
when one of the source's `unwrap` calls would panic. -/
def format_month (year month : Nat) (print_year : Bool) (today : Date) :
    Option (List String) :=
  (last_day_in_month year month).bind fun last_day =>
    (List.foldl (dayStep year month last_day.day today) (some ([], ""))
        (List.range' 1 last_day.day)).bind fun st =>
      let days := st.1
      let days := if days.length < 6 then days ++ [strRepeat " " 22] else days
      some (top_line year month print_year :: week_header :: days)

/-- The 66-column header line of the year view, from the `None` branch of `run`. -/
def year_header (year : Nat) : String :=
  strRepeat " " 28 ++ natStr year ++ strRepeat " " (66 - 28 - (natStr year).length)

/-- `Itertools::chunks(3)`: split a list into consecutive chunks of three. -/
def chunksOf3 {α : Type} : List α → List (List α)
  | a :: b :: c :: rest => [a, b, c] :: chunksOf3 rest
  | [] => []
  | rest => [rest]

/-- The zipping concatenation used to place three month grids side by side. -/
def zipConcat (a b : List String) : List String := List.zipWith (· ++ ·) a b

/-- `vecs.reduce(zip-concat)` over one chunk of month grids. -/
def reduceConcat : List (List String) → List String
  | [] => []
  | h :: t => t.foldl zipConcat h

/-- The lines printed by the `None` (whole-year) branch of `run`: header,
then for each row of three months its lines followed by one blank line. -/
def run_year_lines (year : Nat) (today : Date) : Option (List String) :=
  match (List.range' 1 12).mapM (fun month => format_month year month false today) with
  | none => none
  | some grids =>
    let body := (chunksOf3 grids).map reduceConcat
    some (year_header year :: (body.map (fun r => r ++ [""])).flatten)

/-- ASCII decimal digit `0`–`9` (the only digits `str::parse` accepts). -/
def isDecDigit (c : Char) : Bool := 48 ≤ c.toNat ∧ c.toNat ≤ 57

/-- ASCII letter `A`–`Z` or `a`–`z`. -/
def isAsciiLetter (c : Char) : Bool :=
  (65 ≤ c.toNat ∧ c.toNat ≤ 90) ∨ (97 ≤ c.toNat ∧ c.toNat ≤ 122)

/-- Value of a non-empty all-digit character list, as consumed by `str::parse`. -/
def decDigits (cs : List Char) : Option Nat :=
  if cs = [] then none
  else if cs.all isDecDigit then
    some (cs.foldl (fun a c => a * 10 + (c.toNat - 48)) 0)
  else none

/-- Strip one leading `+`, as `str::parse` for unsigned integers allows. -/
def stripPlus (cs : List Char) : List Char :=
  match cs with
  | c :: rest => if c = '+' then rest else c :: rest
  | [] => []

/-- Split an optional leading sign off a numeral, as `str::parse` for
signed integers allows. -/
def splitSign (cs : List Char) : Int × List Char :=
  match cs with
  | c :: rest =>
    if c = '+' then (1, rest)
    else if c = '-' then (-1, rest)
    else (1, c :: rest)
  | [] => (1, [])

/-- Embedding of `parse_int::<u32>`: optional `+`, digits, value below 2^32. -/
def parse_int_u32 (s : String) : Except String Nat :=
  match decDigits (stripPlus s.data) with
  | some n =>
    if n < 4294967296 then .ok n else .error ("Invalid integer \"" ++ s ++ "\"")
  | none => .error ("Invalid integer \"" ++ s ++ "\"")

/-- Embedding of `parse_int::<i32>`: optional sign, digits, value within i32. -/
def parse_int_i32 (s : String) : Except String Int :=
  match decDigits (splitSign s.data).2 with
  | some n =>
    if -2147483648 ≤ (splitSign s.data).1 * (n : Int)
        ∧ (splitSign s.data).1 * (n : Int) ≤ 2147483647 then
      .ok ((splitSign s.data).1 * (n : Int))
    else .error ("Invalid integer \"" ++ s ++ "\"")
  | none => .error ("Invalid integer \"" ++ s ++ "\"")

/-- Embedding of `parse_year`. -/
def parse_year (s : String) : Except String Int :=
  match parse_int_i32 s with
  | .ok y =>
    if 1 ≤ y ∧ y ≤ 9999 then .ok y
    else .error ("year \"" ++ intStr y ++ "\" not in the range 1 through 9999")
  | .error e => .error e

/-- Embedding of the regex-crate test `Regex::new("^" ++ pat).is_match text`
with `case_insensitive(true)`, for anchored patterns made of literal
characters and the any-character metacharacter `.`. -/
def rx_match : List Char → List Char → Bool
  | [], _ => true
  | _ :: _, [] => false
  | p :: ps, c :: cs => (p == '.' || p.toLower == c.toLower) && rx_match ps cs

/-- Embedding of `parse_month`: a numeric month with range check, otherwise a
case-insensitive anchored regex match against the `MONTHS` table. -/
def parse_month (s : String) : Except String Nat :=
  match parse_int_u32 s with
  | .ok m =>
    if 1 ≤ m ∧ m ≤ 12 then .ok m
    else .error ("month \"" ++ natStr m ++ "\" not in the range 1 through 12")
  | .error _ =>
    let filtered := MONTHS.enum.filter (fun p => rx_match s.data p.2.data)
    if filtered.length = 1 then .ok ((filtered.headD (0, "")).1 + 1)
    else .error ("Invalid month \"" ++ s ++ "\"")

/-- Case-insensitive starts-with, the specification's abstract restatement of
the month-name resolution rule. -/
def ciStarts : List Char → List Char → Bool
  | [], _ => true
  | _ :: _, [] => false
  | p :: ps, c :: cs => p.toLower == c.toLower && ciStarts ps cs

/-- The months whose names the argument starts (case-insensitively), as
1-based month numbers — the specification's month-name resolution table. -/
def spec_month_matches (s : String) : List Nat :=
  (MONTHS.enum.filter (fun p => ciStarts s.data p.2.data)).map (fun p => p.1 + 1)

/-- The lines printed by `run` for a parsed configuration. -/
def run_lines (year : Nat) (month : Option Nat) (today : Date) : Option (List String) :=
  match month with
  | some m => format_month year m true today
  | none => run_year_lines year today

/-- The year field of the configuration: the `-y` argument parsed, or the
current year when absent. -/
def parse_year_arg (yearArg : Option String) (today : Date) : Except String Int :=
  match yearArg with
  | none => .ok (Int.ofNat today.year)
  | some s => parse_year s

/-- The month field of the configuration: the `-m` argument parsed, or
`none` (whole-year view) when absent. -/
def parse_month_arg (monthArg : Option String) : Except String (Option Nat) :=
  match monthArg with
  | none => .ok Option.none
  | some s => (parse_month s).map Option.some

/-- Observable outcome of `main`: either the error message printed to stderr
(with exit code 1 and no calendar output), or the list of printed lines. -/
def main_result (yearArg monthArg : Option String) (today : Date) :
    Except String (List String) :=
  match parse_year_arg yearArg today with
  | .error e => .error e
  | .ok y =>
    match parse_month_arg monthArg with
    | .error e => .error e
    | .ok mo =>
      match run_lines y.toNat mo today with
      | some ls => .ok ls
      | none => .error "internal date error"

/-- Weekday slot (Sunday = 0) on which day 1 of the month falls. -/
def monthOffset (y m : Nat) : Nat := num_days_from_sunday ⟨y, m, 1⟩

/-- Number of Sunday-to-Saturday week rows the month spans. -/
def numWeeks (y m : Nat) : Nat := (monthOffset y m + daysInMonth y m + 6) / 7

/-- Specification-side content of weekday slot `s` (Sunday = 0) of week row
`k`: a blank 3-character cell outside the month, otherwise the day cell
followed by its separator space. -/
def slotStr (y m : Nat) (t : Date) (k s : Nat) : String :=
  if 7 * k + s < monthOffset y m ∨ monthOffset y m + daysInMonth y m ≤ 7 * k + s then "   "
  else print_day t y m (7 * k + s + 1 - monthOffset y m) ++ " "

/-- Concatenation of the first `n` weekday slots of week row `k`. -/
def slotsJoin (y m : Nat) (t : Date) (k : Nat) : Nat → String
  | 0 => ""
  | n + 1 => slotsJoin y m t k n ++ slotStr y m t k n

/-- Specification-side week row `k`: seven weekday slots, Sunday first, plus
the extra trailing space that brings the row to the 22nd column. -/
def weekRow (y m : Nat) (t : Date) (k : Nat) : String := slotsJoin y m t k 7 ++ " "

/-- All week rows of the month, in order. -/
def weekRows (y m : Nat) (t : Date) : List String :=
  (List.range (numWeeks y m)).map (weekRow y m t)

/-- Number of week rows flushed by the day loop after processing day `i`. -/
def flushesAt (y m i : Nat) : Nat :=
  (monthOffset y m + i) / 7 +
    (if i = daysInMonth y m ∧ (monthOffset y m + daysInMonth y m) % 7 ≠ 0 then 1 else 0)

/-- Pending partial row held by the day loop after processing day `i`. -/
def pendingAt (y m : Nat) (t : Date) (i : Nat) : String :=
  if (monthOffset y m + i) % 7 = 0 ∨ i = daysInMonth y m then ""
  else slotsJoin y m t ((monthOffset y m + i - 1) / 7) ((monthOffset y m + i - 1) % 7 + 1)

/-- The month grid with the panic case defaulted away (used to name the
grids inside the year view). -/
def monthGrid (y m : Nat) (t : Date) : List String := (format_month y m false t).getD []

/-- Number of ANSI escape characters in a string. -/
def escCountStr (s : String) : Nat := s.data.count '\x1b'

/-- Number of ANSI escape characters in a whole grid; each reverse-video
span contributes exactly two (introducer and reset). -/
def escCount (g : List String) : Nat := (g.map escCountStr).sum

/-! ## Basic string lemmas -/

theorem strRepeat_succ (s : String) (n : Nat) : strRepeat s (n + 1) = strRepeat s n ++ s := rfl

theorem strRepeat_length (s : String) (n : Nat) : (strRepeat s n).length = n * s.length := by
  induction n with
  | zero => simp [strRepeat]
  | succ n ih => rw [strRepeat_succ, String.length_append, ih]; ring

theorem natStrGo_lt10 (fuel : Nat) {n : Nat} (h : n < 10) :
    natStrGo fuel n = String.mk [Nat.digitChar n] := by
  cases fuel with
  | zero => rw [natStrGo, Nat.mod_eq_of_lt h]
  | succ fuel => rw [natStrGo, if_pos h]

theorem natStrGo_congr : ∀ n fuel1 fuel2, n ≤ fuel1 → n ≤ fuel2 →
    natStrGo fuel1 n = natStrGo fuel2 n := by
  intro n
  induction n using Nat.strong_induction_on with
  | _ n ih =>
    intro fuel1 fuel2 h1 h2
    by_cases h10 : n < 10
    · rw [natStrGo_lt10 fuel1 h10, natStrGo_lt10 fuel2 h10]
    · obtain ⟨f1, rfl⟩ : ∃ f, fuel1 = f + 1 := ⟨fuel1 - 1, by omega⟩
      obtain ⟨f2, rfl⟩ : ∃ f, fuel2 = f + 1 := ⟨fuel2 - 1, by omega⟩
      rw [natStrGo, if_neg h10, natStrGo, if_neg h10]
      have hd : n / 10 < n := Nat.div_lt_self (by omega) (by omega)
      rw [ih (n / 10) hd f1 (n / 10) (by omega) le_rfl,
        ih (n / 10) hd f2 (n / 10) (by omega) le_rfl]

theorem natStr_lt10 {n : Nat} (h : n < 10) : natStr n = String.mk [Nat.digitChar n] :=
  natStrGo_lt10 n h

theorem natStr_ge10 {n : Nat} (h : ¬ n < 10) :
    natStr n = natStr (n / 10) ++ String.mk [Nat.digitChar (n % 10)] := by
  unfold natStr
  obtain ⟨f, hf⟩ : ∃ f, n = f + 1 := ⟨n - 1, by omega⟩
  rw [hf, natStrGo, if_neg (by omega)]
  rw [natStrGo_congr ((f + 1) / 10) f ((f + 1) / 10) (by omega) le_rfl]

theorem natStr_length_pos (n : Nat) : 1 ≤ (natStr n).length := by
  by_cases h : n < 10
  · rw [natStr_lt10 h]; rfl
  · rw [natStr_ge10 h, String.length_append]
    simp

theorem natStr_length_succ {n : Nat} (h : ¬ n < 10) :
    (natStr n).length = (natStr (n / 10)).length + 1 := by
  rw [natStr_ge10 h, String.length_append]; rfl

theorem natStr_length_le_four {n : Nat} (h : n ≤ 9999) : (natStr n).length ≤ 4 := by
  by_cases h1 : n < 10
  · rw [natStr_lt10 h1]; simp
  by_cases h2 : n / 10 < 10
  · rw [natStr_length_succ h1, natStr_lt10 h2]; simp
  by_cases h3 : n / 10 / 10 < 10
  · rw [natStr_length_succ h1, natStr_length_succ h2, natStr_lt10 h3]; simp
  have h4 : n / 10 / 10 / 10 < 10 := by omega
  rw [natStr_length_succ h1, natStr_length_succ h2, natStr_length_succ h3, natStr_lt10 h4]
  simp

theorem digitChar_digit {n : Nat} (h : n < 10) : 48 ≤ (Nat.digitChar n).toNat ∧
    (Nat.digitChar n).toNat ≤ 57 := by
  interval_cases n <;> decide

theorem natStr_data_digit (n : Nat) : ∀ c ∈ (natStr n).data, isDecDigit c := by
  induction n using Nat.strong_induction_on with
  | _ n ih =>
    intro c hc
    by_cases h : n < 10
    · rw [natStr_lt10 h] at hc
      have hm : c ∈ [Nat.digitChar n] := hc
      rw [List.mem_singleton] at hm
      subst hm
      simp [isDecDigit, digitChar_digit h]
    · rw [natStr_ge10 h, String.data_append] at hc
      rcases List.mem_append.mp hc with hc1 | hc1
      · exact ih (n / 10) (Nat.div_lt_self (by omega) (by omega)) c hc1
      · have hm : c ∈ [Nat.digitChar (n % 10)] := hc1
        rw [List.mem_singleton] at hm
        subst hm
        simp [isDecDigit, digitChar_digit (Nat.mod_lt n (by omega))]

theorem natStr_length_le_two {d : Nat} (h : d < 100) : (natStr d).length ≤ 2 := by
  by_cases h1 : d < 10
  · rw [natStr_lt10 h1]; simp
  · rw [natStr_length_succ h1, natStr_lt10 (by omega)]; simp

theorem rightJust2_length {d : Nat} (h : d < 100) : (rightJust2 d).length = 2 := by
  have hp := natStr_length_pos d
  have hle := natStr_length_le_two h
  unfold rightJust2
  split
  · rw [String.length_append, strRepeat_length]
    have h1 : (" " : String).length = 1 := rfl
    rw [h1]
    omega
  · omega

theorem print_day_not_today {t : Date} {y m d : Nat}
    (h : ¬(t.year = y ∧ t.month = m ∧ t.day = d)) :
    print_day t y m d = rightJust2 d := by
  unfold print_day
  simp only [h, if_false]

theorem print_day_length {t : Date} {y m d : Nat}
    (h : ¬(t.year = y ∧ t.month = m ∧ t.day = d)) (hd : d < 100) :
    (print_day t y m d).length = 2 := by
  rw [print_day_not_today h]; exact rightJust2_length hd

/-! ## Date lemmas -/

theorem daysInMonth_ge (y m : Nat) : 28 ≤ daysInMonth y m := by
  unfold daysInMonth
  split
  · split <;> omega
  · split <;> omega

theorem daysInMonth_le (y m : Nat) : daysInMonth y m ≤ 31 := by
  unfold daysInMonth
  split
  · split <;> omega
  · split <;> omega

theorem from_ymd_opt_valid {y m d : Nat} (hm1 : 1 ≤ m) (hm2 : m ≤ 12)
    (hd1 : 1 ≤ d) (hd2 : d ≤ daysInMonth y m) :
    from_ymd_opt y m d = some ⟨y, m, d⟩ := by
  unfold from_ymd_opt
  rw [if_pos ⟨hm1, hm2, hd1, hd2⟩]

theorem daysInMonth_dec (y : Nat) : daysInMonth y 12 = 31 := rfl

theorem last_day_in_month_eq (y m : Nat) (hm1 : 1 ≤ m) (hm2 : m ≤ 12) :
    last_day_in_month y m = some ⟨y, m, daysInMonth y m⟩ := by
  unfold last_day_in_month
  by_cases h12 : m = 12
  · subst h12
    rw [if_pos rfl]
    rw [from_ymd_opt_valid (by omega) (by omega) (by omega)
      (le_trans (by omega) (daysInMonth_ge (y + 1) 1))]
    rw [Option.some_bind]
    unfold pred_opt
    simp only [show ¬(2 ≤ (1 : Nat)) from by omega, if_false, if_pos (by omega : 1 ≤ y + 1)]
    rw [daysInMonth_dec y]
    simp
  · rw [if_neg h12]
    rw [from_ymd_opt_valid (by omega) (by omega) (by omega)
      (le_trans (by omega) (daysInMonth_ge y (m + 1)))]
    rw [Option.some_bind]
    unfold pred_opt
    simp only [show ¬(2 ≤ (1 : Nat)) from by omega, if_false,
      if_pos (show 2 ≤ m + 1 from by omega)]
    simp

theorem dayNumber_linear (y m d : Nat) (hd : 1 ≤ d) :
    dayNumber ⟨y, m, d⟩ = dayNumber ⟨y, m, 1⟩ + (d - 1) := by
  unfold dayNumber
  simp only
  omega

theorem weekday_linear (y m d : Nat) (hd : 1 ≤ d) :
    num_days_from_sunday ⟨y, m, d⟩ = (monthOffset y m + (d - 1)) % 7 := by
  unfold monthOffset num_days_from_sunday
  rw [dayNumber_linear y m d hd]
  omega

theorem monthOffset_lt (y m : Nat) : monthOffset y m < 7 :=
  Nat.mod_lt _ (by omega)

theorem numWeeks_ge (y m : Nat) : 4 ≤ numWeeks y m := by
  have := daysInMonth_ge y m
  unfold numWeeks
  omega

theorem numWeeks_le (y m : Nat) : numWeeks y m ≤ 6 := by
  have h1 := daysInMonth_le y m
  have h2 := monthOffset_lt y m
  unfold numWeeks
  omega

/-! ## Week-slot lemmas -/

theorem slotsJoin_succ (y m : Nat) (t : Date) (k n : Nat) :
    slotsJoin y m t k (n + 1) = slotsJoin y m t k n ++ slotStr y m t k n := rfl

theorem slotStr_pad_low {y m : Nat} {t : Date} {k s : Nat}
    (h : 7 * k + s < monthOffset y m) : slotStr y m t k s = "   " := by
  unfold slotStr; rw [if_pos (Or.inl h)]

theorem slotStr_pad_high {y m : Nat} {t : Date} {k s : Nat}
    (h : monthOffset y m + daysInMonth y m ≤ 7 * k + s) : slotStr y m t k s = "   " := by
  unfold slotStr; rw [if_pos (Or.inr h)]

theorem slotStr_day {y m : Nat} {t : Date} {k s : Nat}
    (h1 : monthOffset y m ≤ 7 * k + s) (h2 : 7 * k + s < monthOffset y m + daysInMonth y m) :
    slotStr y m t k s = print_day t y m (7 * k + s + 1 - monthOffset y m) ++ " " := by
  unfold slotStr; rw [if_neg (by omega)]

theorem slotsJoin_lead_pad (y m : Nat) (t : Date) {n : Nat} (h : n ≤ monthOffset y m) :
    slotsJoin y m t 0 n = strRepeat "   " n := by
  induction n with
  | zero => rfl
  | succ n ih =>
    rw [slotsJoin_succ, ih (by omega), slotStr_pad_low (by omega), strRepeat_succ]

theorem slotsJoin_trail_pad (y m : Nat) (t : Date) (k a : Nat)
    (h : monthOffset y m + daysInMonth y m ≤ 7 * k + a) (c : Nat) :
    slotsJoin y m t k (a + c) = slotsJoin y m t k a ++ strRepeat "   " c := by
  induction c with
  | zero => simp [strRepeat]
  | succ c ih =>
    rw [show a + (c + 1) = (a + c) + 1 from rfl, slotsJoin_succ, ih,
      slotStr_pad_high (by omega), strRepeat_succ, String.append_assoc]

theorem weekday_one (y m : Nat) : num_days_from_sunday ⟨y, m, 1⟩ = monthOffset y m := rfl

/-- Appending the cell of day `i + 1` to the pending partial row gives the
partial row through that day. -/
theorem pending_extend (y m : Nat) (t : Date) (i : Nat)
    (hi : 1 ≤ i) (hiL : i < daysInMonth y m) :
    pendingAt y m t i ++ print_day t y m (1 + i) ++ " "
      = slotsJoin y m t ((monthOffset y m + i) / 7) ((monthOffset y m + i) % 7 + 1) := by
  have hoff := monthOffset_lt y m
  unfold pendingAt
  by_cases h0 : (monthOffset y m + i) % 7 = 0
  · rw [if_pos (Or.inl h0), String.empty_append]
    rw [slotsJoin_succ,
      show slotsJoin y m t ((monthOffset y m + i) / 7) ((monthOffset y m + i) % 7) =
        slotsJoin y m t ((monthOffset y m + i) / 7) 0 from by rw [h0],
      slotStr_day (by omega) (by omega)]
    rw [show 7 * ((monthOffset y m + i) / 7) + (monthOffset y m + i) % 7 + 1 - monthOffset y m
        = 1 + i from by omega]
    rfl
  · rw [if_neg (by push_neg; exact ⟨h0, by omega⟩)]
    rw [show (monthOffset y m + i - 1) / 7 = (monthOffset y m + i) / 7 from by omega,
      show (monthOffset y m + i - 1) % 7 + 1 = (monthOffset y m + i) % 7 from by omega]
    rw [slotsJoin_succ, slotStr_day (by omega) (by omega)]
    rw [show 7 * ((monthOffset y m + i) / 7) + (monthOffset y m + i) % 7 + 1 - monthOffset y m
        = 1 + i from by omega]
    rw [String.append_assoc]


/-- A full 7-slot row equals the row through slot `w` plus trailing padding,
when the month ends within slot `w`. -/
theorem slotsJoin_full (y m : Nat) (t : Date) (k w : Nat) (hw : w < 7)
    (h : monthOffset y m + daysInMonth y m ≤ 7 * k + w + 1) :
    slotsJoin y m t k 7 = slotsJoin y m t k (w + 1) ++ strRepeat "   " (6 - w) := by
  rw [show (7 : Nat) = (w + 1) + (6 - w) from by omega]
  exact slotsJoin_trail_pad y m t k (w + 1) (by omega) (6 - w)

/-- Invariant of the day loop of `format_month`: after folding over days
`1..i`, the state holds exactly the flushed week rows and the pending
partial row. -/
theorem fold_inv (y m : Nat) (t : Date) (hm1 : 1 ≤ m) (hm2 : m ≤ 12) :
    ∀ i, 1 ≤ i → i ≤ daysInMonth y m →
      List.foldl (dayStep y m (daysInMonth y m) t) (some ([], ""))
          (List.range' 1 i)
        = some ((List.range (flushesAt y m i)).map (weekRow y m t), pendingAt y m t i) := by
  have hoff := monthOffset_lt y m
  have hL28 := daysInMonth_ge y m
  have hline1 : strRepeat "   " (monthOffset y m) ++ print_day t y m 1 ++ " "
      = slotsJoin y m t 0 (monthOffset y m + 1) := by
    rw [slotsJoin_succ, slotsJoin_lead_pad y m t le_rfl,
      slotStr_day (by omega) (by omega),
      show 7 * 0 + monthOffset y m + 1 - monthOffset y m = 1 from by omega,
      String.append_assoc]
  intro i hi
  induction i, hi using Nat.le_induction with
  | base =>
    intro _
    rw [List.range'_one, List.foldl_cons, List.foldl_nil]
    unfold dayStep
    rw [Option.some_bind, from_ymd_opt_valid hm1 hm2 le_rfl (by omega), Option.some_bind]
    simp only [weekday_one]
    rw [if_true]
    unfold flushesAt pendingAt
    by_cases h6 : monthOffset y m = 6
    · rw [if_pos h6]
      rw [if_neg (show ¬(1 = daysInMonth y m ∧
          (monthOffset y m + daysInMonth y m) % 7 ≠ 0) from by omega)]
      rw [if_pos (show (monthOffset y m + 1) % 7 = 0 ∨ 1 = daysInMonth y m from by omega)]
      rw [show (monthOffset y m + 1) / 7 + 0 = 1 from by omega]
      rw [show List.range 1 = [0] from rfl, List.map_cons, List.map_nil]
      unfold weekRow
      rw [show (7 : Nat) = monthOffset y m + 1 from by omega, ← hline1]
      rfl
    · rw [if_neg h6]
      rw [if_neg (show ¬(1 = daysInMonth y m ∧
          (monthOffset y m + daysInMonth y m) % 7 ≠ 0) from by omega)]
      rw [if_neg (show ¬((monthOffset y m + 1) % 7 = 0 ∨ 1 = daysInMonth y m) from by omega)]
      rw [show (monthOffset y m + 1) / 7 + 0 = 0 from by omega]
      rw [show (monthOffset y m + 1 - 1) / 7 = 0 from by omega,
        show (monthOffset y m + 1 - 1) % 7 + 1 = monthOffset y m + 1 from by omega]
      rw [show List.range 0 = [] from rfl, List.map_nil, ← hline1]
  | succ i hi ih =>
    intro hiL1
    rw [show i + 1 = 1 + i from Nat.add_comm i 1]
    have hiL : i ≤ daysInMonth y m := by omega
    have hfold := ih hiL
    have hsplit : List.range' 1 (1 + i) = List.range' 1 i ++ [1 + i] := by
      rw [← List.range'_append_1 1 i 1, List.range'_one]
    rw [hsplit, List.foldl_append, hfold, List.foldl_cons, List.foldl_nil]
    unfold dayStep
    rw [Option.some_bind, from_ymd_opt_valid hm1 hm2 (by omega) (by omega), Option.some_bind]
    simp only [weekday_linear y m (1 + i) (by omega), show 1 + i - 1 = i from by omega]
    rw [if_neg (show ¬(1 + i = 1) from by omega)]
    have hind : (monthOffset y m + i) / 7 = flushesAt y m i := by
      unfold flushesAt
      rw [if_neg (show ¬(i = daysInMonth y m ∧
        (monthOffset y m + daysInMonth y m) % 7 ≠ 0) from by omega)]
      omega
    by_cases hlast : 1 + i = daysInMonth y m
    · rw [if_pos hlast]
      have hrow : pendingAt y m t i ++ print_day t y m (1 + i) ++ " "
            ++ strRepeat "   " (6 - (monthOffset y m + i) % 7) ++ " "
          = weekRow y m t ((monthOffset y m + i) / 7) := by
        rw [pending_extend y m t i (by omega) (by omega)]
        unfold weekRow
        rw [slotsJoin_full y m t ((monthOffset y m + i) / 7) ((monthOffset y m + i) % 7)
          (by omega) (by omega)]
      have hfl : flushesAt y m (1 + i) = flushesAt y m i + 1 := by
        unfold flushesAt
        by_cases hz : (monthOffset y m + daysInMonth y m) % 7 = 0
        · rw [if_neg (by omega), if_neg (by omega)]
          omega
        · rw [if_pos ⟨hlast, hz⟩, if_neg (by omega)]
          omega
      have hpend : pendingAt y m t (1 + i) = "" := by
        unfold pendingAt
        rw [if_pos (Or.inr hlast)]
      rw [hrow, hind, hfl, hpend, List.range_succ, List.map_append, List.map_cons, List.map_nil]
    · rw [if_neg hlast]
      by_cases h6 : (monthOffset y m + i) % 7 = 6
      · rw [if_pos h6]
        have hrow : pendingAt y m t i ++ print_day t y m (1 + i) ++ " " ++ " "
            = weekRow y m t ((monthOffset y m + i) / 7) := by
          rw [pending_extend y m t i (by omega) (by omega), h6]
          rfl
        have hfl : flushesAt y m (1 + i) = flushesAt y m i + 1 := by
          unfold flushesAt
          rw [if_neg (by omega), if_neg (by omega)]
          omega
        have hpend : pendingAt y m t (1 + i) = "" := by
          unfold pendingAt
          rw [if_pos (by omega)]
        rw [hrow, hind, hfl, hpend, List.range_succ, List.map_append, List.map_cons,
          List.map_nil]
      · rw [if_neg h6]
        have hfl : flushesAt y m (1 + i) = flushesAt y m i := by
          unfold flushesAt
          rw [if_neg (by omega), if_neg (by omega)]
          omega
        have hpend : pendingAt y m t (1 + i)
            = slotsJoin y m t ((monthOffset y m + i) / 7) ((monthOffset y m + i) % 7 + 1) := by
          unfold pendingAt
          rw [if_neg (by omega)]
          rw [show (monthOffset y m + (1 + i) - 1) / 7 = (monthOffset y m + i) / 7
              from by omega,
            show (monthOffset y m + (1 + i) - 1) % 7 + 1 = (monthOffset y m + i) % 7 + 1
              from by omega]
        rw [pending_extend y m t i (by omega) (by omega), hfl, hpend]

/-- The number of rows flushed at the last day is the week count. -/
theorem flushesAt_last (y m : Nat) : flushesAt y m (daysInMonth y m) = numWeeks y m := by
  have hoff := monthOffset_lt y m
  have hL := daysInMonth_ge y m
  unfold flushesAt numWeeks
  by_cases hz : (monthOffset y m + daysInMonth y m) % 7 = 0
  · rw [if_neg (by omega)]
    omega
  · rw [if_pos ⟨rfl, hz⟩]
    omega

/-- Characterization of `format_month` for a valid month: the title line, the
weekday header, the week rows, and the blank filler row when fewer than six
weeks were produced. -/
theorem format_month_eq (y m : Nat) (py : Bool) (t : Date) (hm1 : 1 ≤ m) (hm2 : m ≤ 12) :
    format_month y m py t = some (top_line y m py :: week_header ::
      (weekRows y m t ++ if numWeeks y m < 6 then [strRepeat " " 22] else [])) := by
  have hL := daysInMonth_ge y m
  unfold format_month
  rw [last_day_in_month_eq y m hm1 hm2]
  simp only [Option.some_bind]
  rw [fold_inv y m t hm1 hm2 (daysInMonth y m) (by omega) le_rfl]
  simp only [Option.some_bind]
  rw [flushesAt_last]
  unfold weekRows
  simp only [List.length_map, List.length_range]
  by_cases h6 : numWeeks y m < 6
  · rw [if_pos h6, if_pos h6]
  · rw [if_neg h6, if_neg h6, List.append_nil]

/-! ## Length lemmas -/

theorem slotStr_length (y m : Nat) (t : Date) (k s : Nat)
    (hout : ¬(t.year = y ∧ t.month = m)) : (slotStr y m t k s).length = 3 := by
  have hle := daysInMonth_le y m
  unfold slotStr
  split
  · rfl
  · rename_i h
    rw [String.length_append,
      print_day_length (fun hc => hout ⟨hc.1, hc.2.1⟩) (by omega)]
    rfl

theorem slotsJoin_length (y m : Nat) (t : Date) (k : Nat)
    (hout : ¬(t.year = y ∧ t.month = m)) (n : Nat) :
    (slotsJoin y m t k n).length = 3 * n := by
  induction n with
  | zero => rfl
  | succ n ih =>
    rw [slotsJoin_succ, String.length_append, ih, slotStr_length y m t k n hout]
    ring

theorem weekRow_length (y m : Nat) (t : Date) (k : Nat)
    (hout : ¬(t.year = y ∧ t.month = m)) : (weekRow y m t k).length = 22 := by
  unfold weekRow
  rw [String.length_append, slotsJoin_length y m t k hout 7]
  rfl

theorem month_name_length (m : Nat) (hm1 : 1 ≤ m) (hm2 : m ≤ 12) :
    3 ≤ (month_name m).length ∧ (month_name m).length ≤ 9 := by
  interval_cases m <;> decide

theorem month_title_length (y m : Nat) (py : Bool) (hy1 : 1 ≤ y) (hy2 : y ≤ 9999)
    (hm1 : 1 ≤ m) (hm2 : m ≤ 12) :
    3 ≤ (month_title y m py).length ∧ (month_title y m py).length ≤ 14 := by
  obtain ⟨h1, h2⟩ := month_name_length m hm1 hm2
  have h3 := natStr_length_le_four hy2
  have h4 := natStr_length_pos y
  unfold month_title
  cases py
  · simp only [Bool.false_eq_true, if_false]
    omega
  · simp only [if_true, String.length_append]
    have h5 : (" " : String).length = 1 := rfl
    omega

theorem top_line_length (y m : Nat) (py : Bool) (hy1 : 1 ≤ y) (hy2 : y ≤ 9999)
    (hm1 : 1 ≤ m) (hm2 : m ≤ 12) : (top_line y m py).length = 22 := by
  obtain ⟨h1, h2⟩ := month_title_length y m py hy1 hy2 hm1 hm2
  unfold top_line
  simp only [String.length_append, strRepeat_length]
  have h5 : (" " : String).length = 1 := rfl
  rw [h5]
  omega

theorem format_month_line_length (y m : Nat) (py : Bool) (t : Date)
    (hy1 : 1 ≤ y) (hy2 : y ≤ 9999) (hm1 : 1 ≤ m) (hm2 : m ≤ 12)
    (hout : ¬(t.year = y ∧ t.month = m)) :
    ∀ g, format_month y m py t = some g → ∀ l ∈ g, l.length = 22 := by
  intro g hg l hl
  rw [format_month_eq y m py t hm1 hm2] at hg
  injection hg with hg
  subst hg
  rcases List.mem_cons.mp hl with h | h
  · subst h
    exact top_line_length y m py hy1 hy2 hm1 hm2
  rcases List.mem_cons.mp h with h | h
  · subst h
    rfl
  rcases List.mem_append.mp h with h | h
  · obtain ⟨k, _, hk⟩ := List.mem_map.mp h
    subst hk
    exact weekRow_length y m t k hout
  · split at h
    · rw [List.mem_singleton] at h
      subst h
      rw [strRepeat_length]
      rfl
    · cases h

theorem format_month_length_eight (y m : Nat) (py : Bool) (t : Date)
    (hm1 : 1 ≤ m) (hm2 : m ≤ 12) (h5 : 5 ≤ numWeeks y m) :
    ∀ g, format_month y m py t = some g → g.length = 8 := by
  intro g hg
  rw [format_month_eq y m py t hm1 hm2] at hg
  injection hg with hg
  subst hg
  have h6 := numWeeks_le y m
  unfold weekRows
  simp only [List.length_cons, List.length_append, List.length_map, List.length_range]
  split
  · simp only [List.length_singleton]
    omega
  · simp only [List.length_nil]
    omega

/-! ## Escape-character counting -/

theorem escCountStr_append (a b : String) :
    escCountStr (a ++ b) = escCountStr a + escCountStr b := by
  unfold escCountStr
  rw [String.data_append, List.count_append]

theorem escCount_cons (a : String) (l : List String) :
    escCount (a :: l) = escCountStr a + escCount l := by
  unfold escCount
  rw [List.map_cons, List.sum_cons]

theorem escCount_append (l1 l2 : List String) :
    escCount (l1 ++ l2) = escCount l1 + escCount l2 := by
  unfold escCount
  rw [List.map_append, List.sum_append]

theorem escCountStr_natStr (n : Nat) : escCountStr (natStr n) = 0 := by
  unfold escCountStr
  rw [List.count_eq_zero]
  intro h
  exact absurd (natStr_data_digit n _ h) (by decide)

theorem escCountStr_strRepeat (s : String) (h : escCountStr s = 0) (n : Nat) :
    escCountStr (strRepeat s n) = 0 := by
  induction n with
  | zero => rfl
  | succ n ih => rw [strRepeat_succ, escCountStr_append, ih, h]

theorem escCountStr_rightJust2 (d : Nat) : escCountStr (rightJust2 d) = 0 := by
  unfold rightJust2
  split
  · rw [escCountStr_append, escCountStr_strRepeat " " rfl, escCountStr_natStr]
  · exact escCountStr_natStr d

theorem escCountStr_print_day (t : Date) (y m d : Nat) :
    escCountStr (print_day t y m d)
      = if t.year = y ∧ t.month = m ∧ t.day = d then 2 else 0 := by
  unfold print_day
  split
  · show escCountStr (if (natStr d).length = 1
        then escRev ++ (" " ++ natStr d) ++ escReset
        else escRev ++ natStr d ++ escReset) = 2
    split
    · rw [escCountStr_append, escCountStr_append, escCountStr_append,
        escCountStr_natStr]
      rfl
    · rw [escCountStr_append, escCountStr_append, escCountStr_natStr]
      rfl
  · show escCountStr (rightJust2 d) = 0
    exact escCountStr_rightJust2 d

theorem escCountStr_slot_out (y m : Nat) (t : Date) (k s : Nat)
    (hout : ¬(t.year = y ∧ t.month = m ∧ 1 ≤ t.day ∧ t.day ≤ daysInMonth y m)) :
    escCountStr (slotStr y m t k s) = 0 := by
  unfold slotStr
  split
  · rfl
  · rename_i h
    rw [escCountStr_append, escCountStr_print_day, if_neg ?hc]
    · rfl
    case hc =>
      rintro ⟨h1, h2, h3⟩
      exact hout ⟨h1, h2, by omega⟩

theorem escCountStr_slot_in (y m : Nat) (t : Date) (k s : Nat)
    (hin : t.year = y ∧ t.month = m ∧ 1 ≤ t.day ∧ t.day ≤ daysInMonth y m) :
    escCountStr (slotStr y m t k s)
      = if 7 * k + s + 1 = monthOffset y m + t.day then 2 else 0 := by
  obtain ⟨h1, h2, h3, h4⟩ := hin
  unfold slotStr
  split
  · rename_i h
    rw [if_neg (by omega)]
    rfl
  · rename_i h
    rw [escCountStr_append, escCountStr_print_day,
      show escCountStr " " = 0 from rfl]
    by_cases hd : 7 * k + s + 1 = monthOffset y m + t.day
    · rw [if_pos ⟨h1, h2, by omega⟩, if_pos hd]
    · rw [if_neg (fun hc => hd (by omega)), if_neg hd]

theorem escCountStr_slotsJoin_out (y m : Nat) (t : Date) (k : Nat)
    (hout : ¬(t.year = y ∧ t.month = m ∧ 1 ≤ t.day ∧ t.day ≤ daysInMonth y m)) (n : Nat) :
    escCountStr (slotsJoin y m t k n) = 0 := by
  induction n with
  | zero => rfl
  | succ n ih =>
    rw [slotsJoin_succ, escCountStr_append, ih, escCountStr_slot_out y m t k n hout]

theorem escCountStr_weekRow_out (y m : Nat) (t : Date) (k : Nat)
    (hout : ¬(t.year = y ∧ t.month = m ∧ 1 ≤ t.day ∧ t.day ≤ daysInMonth y m)) :
    escCountStr (weekRow y m t k) = 0 := by
  unfold weekRow
  rw [escCountStr_append, escCountStr_slotsJoin_out y m t k hout]
  rfl

theorem escCountStr_slotsJoin_in (y m : Nat) (t : Date) (k : Nat)
    (hin : t.year = y ∧ t.month = m ∧ 1 ≤ t.day ∧ t.day ≤ daysInMonth y m) (n : Nat) :
    escCountStr (slotsJoin y m t k n)
      = if 7 * k < monthOffset y m + t.day ∧ monthOffset y m + t.day ≤ 7 * k + n
        then 2 else 0 := by
  have h3 := hin.2.2.1
  induction n with
  | zero =>
    rw [if_neg (by omega)]
    rfl
  | succ n ih =>
    rw [slotsJoin_succ, escCountStr_append, ih, escCountStr_slot_in y m t k n hin]
    split_ifs <;> omega

theorem escCountStr_weekRow_in (y m : Nat) (t : Date) (k : Nat)
    (hin : t.year = y ∧ t.month = m ∧ 1 ≤ t.day ∧ t.day ≤ daysInMonth y m) :
    escCountStr (weekRow y m t k)
      = if 7 * k < monthOffset y m + t.day ∧ monthOffset y m + t.day ≤ 7 * k + 7
        then 2 else 0 := by
  unfold weekRow
  rw [escCountStr_append, escCountStr_slotsJoin_in y m t k hin 7,
    show escCountStr " " = 0 from rfl]
  omega

theorem escCount_range_map_out (y m : Nat) (t : Date)
    (hout : ¬(t.year = y ∧ t.month = m ∧ 1 ≤ t.day ∧ t.day ≤ daysInMonth y m)) (n : Nat) :
    escCount ((List.range n).map (weekRow y m t)) = 0 := by
  induction n with
  | zero => rfl
  | succ n ih =>
    rw [List.range_succ, List.map_append, escCount_append, ih, List.map_cons, List.map_nil,
      escCount_cons, escCountStr_weekRow_out y m t n hout]
    rfl

theorem escCount_range_map_in (y m : Nat) (t : Date)
    (hin : t.year = y ∧ t.month = m ∧ 1 ≤ t.day ∧ t.day ≤ daysInMonth y m) (n : Nat) :
    escCount ((List.range n).map (weekRow y m t))
      = if monthOffset y m + t.day ≤ 7 * n then 2 else 0 := by
  have h3 := hin.2.2.1
  induction n with
  | zero =>
    rw [if_neg (by omega)]
    rfl
  | succ n ih =>
    rw [List.range_succ, List.map_append, escCount_append, ih, List.map_cons, List.map_nil,
      escCount_cons, escCountStr_weekRow_in y m t n hin]
    unfold escCount
    rw [List.map_nil, List.sum_nil]
    split_ifs <;> omega

theorem escCountStr_month_name (m : Nat) : escCountStr (month_name m) = 0 := by
  unfold month_name MONTHS
  rcases m with _ | _ | _ | _ | _ | _ | _ | _ | _ | _ | _ | _ | _ | m <;> rfl

theorem escCountStr_month_title (y m : Nat) (py : Bool) :
    escCountStr (month_title y m py) = 0 := by
  unfold month_title
  cases py
  · simp only [Bool.false_eq_true, if_false]
    exact escCountStr_month_name m
  · simp only [if_true]
    rw [escCountStr_append, escCountStr_append, escCountStr_month_name,
      escCountStr_natStr]
    rfl

theorem escCountStr_top_line (y m : Nat) (py : Bool) :
    escCountStr (top_line y m py) = 0 := by
  unfold top_line
  rw [escCountStr_append, escCountStr_append, escCountStr_strRepeat " " rfl,
    escCountStr_strRepeat " " rfl, escCountStr_month_title]

/-- The total escape count of a month grid: two when today falls inside the
displayed month (one styled span), zero otherwise. -/
theorem escCount_format_month (y m : Nat) (py : Bool) (t : Date)
    (hm1 : 1 ≤ m) (hm2 : m ≤ 12) :
    ∀ g, format_month y m py t = some g →
      escCount g = if t.year = y ∧ t.month = m ∧ 1 ≤ t.day ∧ t.day ≤ daysInMonth y m
        then 2 else 0 := by
  intro g hg
  rw [format_month_eq y m py t hm1 hm2] at hg
  injection hg with hg
  subst hg
  rw [escCount_cons, escCount_cons, escCount_append, escCountStr_top_line,
    show escCountStr week_header = 0 from rfl]
  have hfiller : escCount (if numWeeks y m < 6 then [strRepeat " " 22] else []) = 0 := by
    split
    · rw [escCount_cons, escCountStr_strRepeat " " rfl]
      rfl
    · rfl
  rw [hfiller]
  unfold weekRows
  by_cases hin : t.year = y ∧ t.month = m ∧ 1 ≤ t.day ∧ t.day ≤ daysInMonth y m
  · rw [if_pos hin, escCount_range_map_in y m t hin]
    have hoff := monthOffset_lt y m
    have h4 := hin.2.2.2
    rw [if_pos (by unfold numWeeks; omega)]
  · rw [if_neg hin, escCount_range_map_out y m t hin]

/-! ## Parser lemmas -/

theorem letter_not_digit {c : Char} (h : isAsciiLetter c = true) : isDecDigit c = false := by
  unfold isAsciiLetter at h
  unfold isDecDigit
  simp only [decide_eq_true_eq] at h
  simp only [decide_eq_false_iff_not]
  omega

theorem letter_ne_plus {c : Char} (h : isAsciiLetter c = true) : ¬(c = '+') := by
  intro he
  rw [he] at h
  exact absurd h (by decide)

theorem decDigits_letters (cs : List Char) (h : cs.all isAsciiLetter) :
    decDigits (stripPlus cs) = none := by
  cases cs with
  | nil => rfl
  | cons c rest =>
    rw [List.all_cons, Bool.and_eq_true] at h
    show decDigits (if c = '+' then rest else c :: rest) = none
    rw [if_neg (letter_ne_plus h.1)]
    unfold decDigits
    rw [if_neg (by simp), if_neg (by simp [List.all_cons, letter_not_digit h.1])]

theorem parse_int_u32_letters (s : String) (hs : s.data.all isAsciiLetter) :
    parse_int_u32 s = .error ("Invalid integer \"" ++ s ++ "\"") := by
  unfold parse_int_u32
  rw [decDigits_letters s.data hs]

theorem beq_dot_false {c : Char} (h : isAsciiLetter c = true) : (c == '.') = false := by
  have hne : ¬(c = '.') := by
    intro he
    rw [he] at h
    exact absurd h (by decide)
  exact beq_eq_false_iff_ne.mpr hne

theorem rx_match_letters (p : List Char) (hp : p.all isAsciiLetter) :
    ∀ text, rx_match p text = ciStarts p text := by
  induction p with
  | nil => intro text; rfl
  | cons c ps ih =>
    rw [List.all_cons, Bool.and_eq_true] at hp
    intro text
    cases text with
    | nil => rfl
    | cons d ds =>
      show ((c == '.' || c.toLower == d.toLower) && rx_match ps ds)
          = (c.toLower == d.toLower && ciStarts ps ds)
      rw [ih hp.2 ds, beq_dot_false hp.1, Bool.false_or]

theorem parse_month_letters_eq (s : String) (hs : s.data.all isAsciiLetter) :
    parse_month s =
      (if (spec_month_matches s).length = 1
       then .ok ((spec_month_matches s).headD 0)
       else .error ("Invalid month \"" ++ s ++ "\"")) := by
  unfold parse_month
  rw [parse_int_u32_letters s hs]
  have hfun : (fun p : Nat × String => rx_match s.data p.2.data)
      = (fun p : Nat × String => ciStarts s.data p.2.data) := by
    funext p
    exact rx_match_letters s.data hs p.2.data
  simp only [hfun]
  unfold spec_month_matches
  by_cases hl : (MONTHS.enum.filter (fun p => ciStarts s.data p.2.data)).length = 1
  · rw [if_pos hl, if_pos (by rw [List.length_map]; exact hl)]
    obtain ⟨p, hp⟩ := List.length_eq_one.mp hl
    rw [hp, List.map_cons, List.map_nil]
    rfl
  · rw [if_neg hl, if_neg (by rw [List.length_map]; exact hl)]

/-! ## Claim theorems -/

/-- C1: the claim states that `format_month` always returns exactly 8 lines,
blank rows being appended until there are exactly 6 body rows.  The code
appends at most one blank row, so for February 2015 — a 28-day month starting
on a Sunday, whose day loop flushes only 4 week rows — the grid has 7 lines,
not 8.  This contradicts the code's own comment and the specification, so it
is a code bug, witnessed here by evaluating the source at the failing input. -/
theorem C1_feb2015_grid_has_seven_lines :
    (format_month 2015 2 true ⟨1, 1, 1⟩).map List.length = some 7 ∧ (7 : Nat) ≠ 8 :=
  ⟨by decide, by decide⟩

/-- C7: `last_day_in_month` computes the predecessor of the first day of the
following month, which equals the true month length — with the
December-to-next-January rollover branch and leap-year February handled:
February 2020 ends at 29 and its grid shows 29 as last day, February 2021
ends at 28. -/
theorem C7_last_day_in_month (y m : Nat) (hm1 : 1 ≤ m) (hm2 : m ≤ 12) :
    last_day_in_month y m = some ⟨y, m, daysInMonth y m⟩
      ∧ (m = 12 → last_day_in_month y m = (from_ymd_opt (y + 1) 1 1).bind pred_opt)
      ∧ last_day_in_month 2020 2 = some ⟨2020, 2, 29⟩
      ∧ last_day_in_month 2021 2 = some ⟨2021, 2, 28⟩
      ∧ format_month 2020 2 true ⟨1, 1, 1⟩ = some
          ["   February 2020      ", "Su Mo Tu We Th Fr Sa  ", "                   1  ",
           " 2  3  4  5  6  7  8  ", " 9 10 11 12 13 14 15  ", "16 17 18 19 20 21 22  ",
           "23 24 25 26 27 28 29  ", "                      "]
      ∧ format_month 2021 2 true ⟨1, 1, 1⟩ = some
          ["   February 2021      ", "Su Mo Tu We Th Fr Sa  ", "    1  2  3  4  5  6  ",
           " 7  8  9 10 11 12 13  ", "14 15 16 17 18 19 20  ", "21 22 23 24 25 26 27  ",
           "28                    ", "                      "] := by
  refine ⟨last_day_in_month_eq y m hm1 hm2, ?_, by decide, by decide, by decide, by decide⟩
  intro h
  subst h
  rfl

theorem C7_last_day_in_month_witness :
    last_day_in_month 2020 2 = some ⟨2020, 2, daysInMonth 2020 2⟩ :=
  (C7_last_day_in_month 2020 2 (by decide) (by decide)).1

/-- C10: for every year in [1, 9999] and month in [1, 12] the error branches
of the internal `unwrap` calls are unreachable: the last-day computation
succeeds, every `from_ymd_opt` lookup for days 1 through the last day
succeeds, and `format_month` returns a grid. -/
theorem C10_format_month_total (y m : Nat) (py : Bool) (t : Date)
    (_hy1 : 1 ≤ y) (_hy2 : y ≤ 9999) (hm1 : 1 ≤ m) (hm2 : m ≤ 12) :
    (last_day_in_month y m).isSome = true
      ∧ (∀ i, 1 ≤ i → i ≤ daysInMonth y m → (from_ymd_opt y m i).isSome = true)
      ∧ (format_month y m py t).isSome = true := by
  refine ⟨?_, ?_, ?_⟩
  · rw [last_day_in_month_eq y m hm1 hm2]
    rfl
  · intro i h1 h2
    rw [from_ymd_opt_valid hm1 hm2 h1 h2]
    rfl
  · rw [format_month_eq y m py t hm1 hm2]
    rfl

theorem C10_format_month_total_witness :
    (format_month 2015 2 true ⟨1, 1, 1⟩).isSome = true :=
  (C10_format_month_total 2015 2 true ⟨1, 1, 1⟩ (by decide) (by decide) (by decide)
    (by decide)).2.2

/-- C8 counterexample: the string `"-1"` denotes the integer −1, which lies
outside 1..12, yet `parse_month` reports the month-name error `Invalid month`
rather than the claimed `not in the range 1 through 12` message, because the
`u32` parser rejects the minus sign before the range check can run. -/
theorem C8_minus_one_wrong_error :
    parse_month "-1" = Except.error "Invalid month \"-1\""
      ∧ ("Invalid month \"-1\"" : String)
          ≠ "month \"-1\" not in the range 1 through 12" :=
  ⟨rfl, by decide⟩

/-- C8 (amended): for every month argument accepted by the unsigned 32-bit
decimal parser with value `n`, `parse_month` returns `n` when `n` lies in
1..12 and otherwise fails with the `not in the range 1 through 12` message,
formatted from the parsed value `n` (so `"013"` and `"+13"` both yield the
message naming `13`); in particular `"0"` and `"13"` get the range error and
`"5"` and `"12"` parse. -/
theorem C8_numeric_month_range (s : String) (n : Nat) (h : parse_int_u32 s = .ok n) :
    ((1 ≤ n ∧ n ≤ 12) → parse_month s = .ok n)
      ∧ (¬(1 ≤ n ∧ n ≤ 12) →
          parse_month s = .error ("month \"" ++ natStr n ++ "\" not in the range 1 through 12"))
      ∧ parse_month "0" = .error "month \"0\" not in the range 1 through 12"
      ∧ parse_month "13" = .error "month \"13\" not in the range 1 through 12"
      ∧ parse_month "013" = .error "month \"13\" not in the range 1 through 12"
      ∧ parse_month "+13" = .error "month \"13\" not in the range 1 through 12"
      ∧ parse_month "5" = .ok 5 ∧ parse_month "12" = .ok 12 := by
  refine ⟨?_, ?_, rfl, rfl, rfl, rfl, rfl, rfl⟩
  · intro hr
    unfold parse_month
    rw [h]
    show (if 1 ≤ n ∧ n ≤ 12 then Except.ok n
      else Except.error ("month \"" ++ natStr n ++ "\" not in the range 1 through 12")) = _
    rw [if_pos hr]
  · intro hr
    unfold parse_month
    rw [h]
    show (if 1 ≤ n ∧ n ≤ 12 then Except.ok n
      else Except.error ("month \"" ++ natStr n ++ "\" not in the range 1 through 12")) = _
    rw [if_neg hr]

theorem C8_numeric_month_range_witness :
    parse_month "13"
        = Except.error ("month \"" ++ natStr 13 ++ "\" not in the range 1 through 12")
      ∧ ("month \"" ++ natStr 13 ++ "\" not in the range 1 through 12")
          = "month \"13\" not in the range 1 through 12" :=
  ⟨((C8_numeric_month_range "13" 13 rfl).2.1) (by omega), by decide⟩

/-- C9 counterexample: the string `"2147483648"` denotes an integer outside
[1, 9999], yet `parse_year` reports the invalid-integer error rather than the
claimed `InvalidYear` range message, because the value overflows `i32` before
the range check can run. -/
theorem C9_overflow_wrong_error :
    parse_year "2147483648" = Except.error "Invalid integer \"2147483648\""
      ∧ ("Invalid integer \"2147483648\"" : String)
          ≠ "year \"2147483648\" not in the range 1 through 9999" :=
  ⟨rfl, by decide⟩

/-- C9 (amended): for every year argument accepted by the signed 32-bit
decimal parser with value `n`, `parse_year` returns `n` when `n` lies in
[1, 9999] and fails with the range message otherwise; strings the parser
rejects (non-integers, and integers overflowing `i32`) get the
invalid-integer error; and any `parse_year` error makes `main` report that
single message with no calendar output. -/
theorem C9_year_range (s : String) :
    (∀ n : Int, parse_int_i32 s = .ok n →
        ((1 ≤ n ∧ n ≤ 9999) → parse_year s = .ok n)
          ∧ (¬(1 ≤ n ∧ n ≤ 9999) →
              parse_year s
                = .error ("year \"" ++ intStr n ++ "\" not in the range 1 through 9999")))
      ∧ (∀ e, parse_int_i32 s = .error e → parse_year s = .error e)
      ∧ (∀ (t : Date) e, parse_year s = .error e →
          main_result (some s) Option.none t = .error e)
      ∧ parse_year "0" = .error "year \"0\" not in the range 1 through 9999"
      ∧ parse_year "9999" = .ok 9999 := by
  refine ⟨?_, ?_, ?_, rfl, rfl⟩
  · intro n h
    constructor
    · intro hr
      unfold parse_year
      rw [h]
      show (if 1 ≤ n ∧ n ≤ 9999 then Except.ok n
        else Except.error ("year \"" ++ intStr n ++ "\" not in the range 1 through 9999")) = _
      rw [if_pos hr]
    · intro hr
      unfold parse_year
      rw [h]
      show (if 1 ≤ n ∧ n ≤ 9999 then Except.ok n
        else Except.error ("year \"" ++ intStr n ++ "\" not in the range 1 through 9999")) = _
      rw [if_neg hr]
  · intro e h
    unfold parse_year
    rw [h]
  · intro t e h
    unfold main_result
    rw [show parse_year_arg (some s) t = parse_year s from rfl, h]

theorem C9_year_range_witness :
    parse_year "0" = Except.error "year \"0\" not in the range 1 through 9999"
      ∧ main_result (some "0") Option.none ⟨2025, 1, 1⟩
          = Except.error "year \"0\" not in the range 1 through 9999" := by
  obtain ⟨h1, h2, h3, h4, h5⟩ := C9_year_range "0"
  exact ⟨h4, h3 ⟨2025, 1, 1⟩ _ h4⟩

/-- C3 counterexample: the pattern is passed to the regex engine unescaped,
so the dot in `"m.y"` acts as a wildcard: `parse_month "m.y"` resolves to May
even though `"m.y"` is a case-insensitive prefix of no month name. -/
theorem C3_regex_dot_matches_may :
    parse_month "m.y" = Except.ok 5 ∧ spec_month_matches "m.y" = [] :=
  ⟨rfl, by decide⟩

/-- C3 (amended): for every month argument made of ASCII letters,
`parse_month` succeeds exactly when the argument is a case-insensitive
prefix of exactly one entry of the ordered month table, returning that
month's 1-based number; `"ju"` is ambiguous and fails with the
`Invalid month` error while `"jun"` resolves to June. -/
theorem C3_month_name_resolution (s : String) (hs : s.data.all isAsciiLetter) :
    (∀ k, parse_month s = .ok k ↔ spec_month_matches s = [k])
      ∧ ((spec_month_matches s).length ≠ 1 →
          parse_month s = .error ("Invalid month \"" ++ s ++ "\""))
      ∧ parse_month "ju" = .error "Invalid month \"ju\""
      ∧ parse_month "jun" = .ok 6 := by
  have heq := parse_month_letters_eq s hs
  refine ⟨?_, ?_, rfl, rfl⟩
  · intro k
    rw [heq]
    constructor
    · intro h
      split at h
      · rename_i hl
        obtain ⟨a, ha⟩ := List.length_eq_one.mp hl
        rw [ha] at h ⊢
        injection h with h
        have h2 : a = k := h
        subst h2
        rfl
      · exact Except.noConfusion h
    · intro h
      rw [h, if_pos (show ([k] : List Nat).length = 1 from rfl)]
      rfl
  · intro hl
    rw [heq, if_neg hl]

theorem C3_month_name_resolution_witness :
    parse_month "may" = Except.ok 5 ∧ spec_month_matches "may" = [5] := by
  obtain ⟨h1, _, _, _⟩ := C3_month_name_resolution "may" (by decide)
  exact ⟨(h1 5).mpr (by decide), by decide⟩

/-- The title line as the specification phrases it: left pad of
`10 - (L + 1) / 2` spaces, right pad filling to width 21, one final space. -/
theorem top_line_spec (y m : Nat) (py : Bool) (hy1 : 1 ≤ y) (hy2 : y ≤ 9999)
    (hm1 : 1 ≤ m) (hm2 : m ≤ 12) :
    top_line y m py = strRepeat " " (10 - ((month_title y m py).length + 1) / 2)
      ++ month_title y m py
      ++ strRepeat " " (21 - ((10 - ((month_title y m py).length + 1) / 2)
            + (month_title y m py).length))
      ++ " " := by
  obtain ⟨h1, h2⟩ := month_title_length y m py hy1 hy2 hm1 hm2
  show strRepeat " " (11 - ((month_title y m py).length + 1) / 2 - 1)
      ++ month_title y m py
      ++ strRepeat " " (12 + ((month_title y m py).length + 1) / 2
          - (month_title y m py).length) = _
  rw [show 11 - (((month_title y m py).length + 1) / 2) - 1
      = 10 - ((month_title y m py).length + 1) / 2 from by omega]
  rw [show 12 + (((month_title y m py).length + 1) / 2) - (month_title y m py).length
      = (21 - ((10 - ((month_title y m py).length + 1) / 2)
          + (month_title y m py).length)) + 1 from by omega]
  rw [strRepeat_succ]
  simp [String.append_assoc]

/-- C5: the title line is the month name (with the year when requested),
left-padded by exactly `10 - (L + 1) / 2` spaces, right-padded to column 21
plus one final space; for the 9-letter "September" the left pad is 5; and
February 2020 with the year yields the reference title and weekday header. -/
theorem C5_title_centering (y m : Nat) (py : Bool) (t : Date)
    (hy1 : 1 ≤ y) (hy2 : y ≤ 9999) (hm1 : 1 ≤ m) (hm2 : m ≤ 12) :
    (∀ g, format_month y m py t = some g →
        g.head? = some (strRepeat " " (10 - ((month_title y m py).length + 1) / 2)
          ++ month_title y m py
          ++ strRepeat " " (21 - ((10 - ((month_title y m py).length + 1) / 2)
                + (month_title y m py).length))
          ++ " ")
          ∧ g[1]? = some week_header)
      ∧ month_title y m true = month_name m ++ " " ++ natStr y
      ∧ (month_title y 9 false).length = 9
      ∧ top_line y 9 false = strRepeat " " 5 ++ month_title y 9 false ++ strRepeat " " 8
      ∧ (∀ g, format_month 2020 2 true t = some g →
          g.head? = some "   February 2020      "
            ∧ g[1]? = some "Su Mo Tu We Th Fr Sa  ")
      ∧ week_header = "Su Mo Tu We Th Fr Sa  " := by
  refine ⟨?_, rfl, rfl, ?_, ?_, rfl⟩
  · intro g hg
    rw [format_month_eq y m py t hm1 hm2] at hg
    injection hg with hg
    subst hg
    exact ⟨by rw [List.head?_cons, top_line_spec y m py hy1 hy2 hm1 hm2], by simp⟩
  · show strRepeat " " (11 - ((month_title y 9 false).length + 1) / 2 - 1)
        ++ month_title y 9 false
        ++ strRepeat " " (12 + ((month_title y 9 false).length + 1) / 2
            - (month_title y 9 false).length)
      = strRepeat " " 5 ++ month_title y 9 false ++ strRepeat " " 8
    rw [show (month_title y 9 false).length = 9 from rfl]
  · intro g hg
    rw [format_month_eq 2020 2 true t (by decide) (by decide)] at hg
    injection hg with hg
    subst hg
    refine ⟨by rw [List.head?_cons]; decide, by simp; decide⟩

theorem C5_title_centering_witness :
    top_line 2020 9 false
      = strRepeat " " 5 ++ month_title 2020 9 false ++ strRepeat " " 8 :=
  (C5_title_centering 2020 9 false ⟨1, 1, 1⟩ (by decide) (by decide) (by decide)
    (by decide)).2.2.2.1

theorem natStr_length_one {n : Nat} (h : n < 10) : (natStr n).length = 1 := by
  rw [natStr_lt10 h]
  rfl

/-- The reverse-video span produced for today's cell: for one-digit days the
leading space of the cell sits inside the span. -/
theorem print_day_today_small (t : Date) (y m : Nat) (h1 : t.year = y) (h2 : t.month = m)
    (h10 : t.day < 10) :
    print_day t y m t.day = escRev ++ (" " ++ natStr t.day) ++ escReset := by
  show (if t.year = y ∧ t.month = m ∧ t.day = t.day then
      if (natStr t.day).length = 1 then escRev ++ (" " ++ natStr t.day) ++ escReset
      else escRev ++ natStr t.day ++ escReset
    else rightJust2 t.day) = _
  rw [if_pos ⟨h1, h2, rfl⟩, if_pos (natStr_length_one h10)]

/-- The reverse-video span for a two-digit today. -/
theorem print_day_today_large (t : Date) (y m : Nat) (h1 : t.year = y) (h2 : t.month = m)
    (h10 : 10 ≤ t.day) (h99 : t.day < 100) :
    print_day t y m t.day = escRev ++ natStr t.day ++ escReset := by
  show (if t.year = y ∧ t.month = m ∧ t.day = t.day then
      if (natStr t.day).length = 1 then escRev ++ (" " ++ natStr t.day) ++ escReset
      else escRev ++ natStr t.day ++ escReset
    else rightJust2 t.day) = _
  rw [if_pos ⟨h1, h2, rfl⟩, if_neg ?hlen]
  case hlen =>
    rw [natStr_length_succ (by omega), natStr_length_one (by omega)]
    omega

/-- C4: a day cell carries the reverse-video escapes exactly when today is
that day of the displayed month: the grid holds two escape characters (one
styled span) when today lies inside the month and none otherwise; for a
single-digit today the leading space of the cell is inside the span, and the
April 2021 reference grid shows the span with its unstyled trailing
separator space. -/
theorem C4_today_highlight (y m : Nat) (py : Bool) (t : Date)
    (hm1 : 1 ≤ m) (hm2 : m ≤ 12) :
    (∀ g, format_month y m py t = some g →
        escCount g = if t.year = y ∧ t.month = m ∧ 1 ≤ t.day ∧ t.day ≤ daysInMonth y m
          then 2 else 0)
      ∧ (t.year = y → t.month = m → t.day < 10 →
          print_day t y m t.day = escRev ++ (" " ++ natStr t.day) ++ escReset)
      ∧ (t.year = y → t.month = m → 10 ≤ t.day → t.day < 100 →
          print_day t y m t.day = escRev ++ natStr t.day ++ escReset)
      ∧ escCountStr escRev = 1 ∧ escCountStr escReset = 1
      ∧ format_month 2021 4 true ⟨2021, 4, 7⟩ = some
          ["     April 2021       ", "Su Mo Tu We Th Fr Sa  ", "             1  2  3  ",
           " 4  5  6 \x1b[7m 7\x1b[0m  8  9 10  ", "11 12 13 14 15 16 17  ",
           "18 19 20 21 22 23 24  ", "25 26 27 28 29 30     ", "                      "] := by
  refine ⟨escCount_format_month y m py t hm1 hm2,
    fun h1 h2 h10 => print_day_today_small t y m h1 h2 h10,
    fun h1 h2 h10 h99 => print_day_today_large t y m h1 h2 h10 h99,
    rfl, rfl, by decide⟩

theorem C4_today_highlight_witness :
    escCount ["     April 2021       ", "Su Mo Tu We Th Fr Sa  ", "             1  2  3  ",
      " 4  5  6 \x1b[7m 7\x1b[0m  8  9 10  ", "11 12 13 14 15 16 17  ",
      "18 19 20 21 22 23 24  ", "25 26 27 28 29 30     ", "                      "] = 2 := by
  obtain ⟨h1, _, _, _, _, hconc⟩ :=
    C4_today_highlight 2021 4 true ⟨2021, 4, 7⟩ (by decide) (by decide)
  have h := h1 _ hconc
  rw [if_pos (by decide)] at h
  exact h

/-- C6 counterexample: with today inside the displayed month the highlighted
row contains the two ANSI escape wrappers, so its character length is 30,
not the claimed 22 — the cell widths of the claim hold only in visible
characters. -/
theorem C6_highlight_row_not_22 :
    (format_month 2021 4 true ⟨2021, 4, 7⟩).map (List.map String.length)
        = some [22, 22, 22, 30, 22, 22, 22, 22]
      ∧ (30 : Nat) ≠ 22 :=
  ⟨by decide, by decide⟩

/-- C6 (amended): when today lies outside the displayed month, the body of
the grid is exactly the Sunday-first week rows: each row is seven 3-character
slots plus one extra trailing space (width 22, so rows break exactly at the
Saturday slot), a slot being blank padding before day 1 and after the last
day and otherwise the day number right-justified to width 2 plus one
separator space. -/
theorem C6_week_row_structure (y m : Nat) (py : Bool) (t : Date)
    (hm1 : 1 ≤ m) (hm2 : m ≤ 12) (hout : ¬(t.year = y ∧ t.month = m)) :
    format_month y m py t = some (top_line y m py :: week_header ::
        ((List.range (numWeeks y m)).map (weekRow y m t)
          ++ if numWeeks y m < 6 then [strRepeat " " 22] else []))
      ∧ (∀ k, weekRow y m t k = slotsJoin y m t k 7 ++ " ")
      ∧ (∀ k s, 7 * k + s < monthOffset y m ∨ monthOffset y m + daysInMonth y m ≤ 7 * k + s →
          slotStr y m t k s = "   ")
      ∧ (∀ k s, monthOffset y m ≤ 7 * k + s → 7 * k + s < monthOffset y m + daysInMonth y m →
          slotStr y m t k s = rightJust2 (7 * k + s + 1 - monthOffset y m) ++ " ")
      ∧ (∀ k, (weekRow y m t k).length = 22)
      ∧ numWeeks y m = (monthOffset y m + daysInMonth y m + 6) / 7 := by
  refine ⟨?_, fun k => rfl, ?_, ?_, fun k => weekRow_length y m t k hout, rfl⟩
  · rw [format_month_eq y m py t hm1 hm2]
    unfold weekRows
    rfl
  · intro k s h
    unfold slotStr
    rw [if_pos h]
  · intro k s h1 h2
    rw [slotStr_day h1 h2, print_day_not_today (fun hc => hout ⟨hc.1, hc.2.1⟩)]

theorem C6_week_row_structure_witness :
    format_month 2020 5 false ⟨1, 1, 1⟩ = some (top_line 2020 5 false :: week_header ::
        ((List.range (numWeeks 2020 5)).map (weekRow 2020 5 ⟨1, 1, 1⟩)
          ++ if numWeeks 2020 5 < 6 then [strRepeat " " 22] else [])) :=
  (C6_week_row_structure 2020 5 false ⟨1, 1, 1⟩ (by decide) (by decide) (by decide)).1

/-- C2 counterexample: for year 2020 (with today outside the year) the
whole-year view prints 37 lines — one header plus four month-rows of eight
lines each followed by a blank line — not the claimed 38. -/
theorem C2_year_view_37_lines :
    (run_year_lines 2020 ⟨1, 1, 1⟩).map List.length = some 37
      ∧ (37 : Nat) ≠ 38 :=
  ⟨by decide, by decide⟩

/-- Every line of a side-by-side month row splits into one line from each
constituent grid. -/
theorem mem_zipConcat {l : String} : ∀ {a b : List String}, l ∈ zipConcat a b →
    ∃ x ∈ a, ∃ z ∈ b, l = x ++ z := by
  intro a
  induction a with
  | nil =>
    intro b h
    cases h
  | cons x xs ih =>
    intro b h
    cases b with
    | nil => cases h
    | cons z zs =>
      rw [show zipConcat (x :: xs) (z :: zs) = (x ++ z) :: zipConcat xs zs from rfl] at h
      rcases List.mem_cons.mp h with h | h
      · exact ⟨x, List.mem_cons_self x xs, z, List.mem_cons_self z zs, h⟩
      · obtain ⟨x1, hx1, z1, hz1, he⟩ := ih h
        exact ⟨x1, List.mem_cons_of_mem x hx1, z1, List.mem_cons_of_mem z hz1, he⟩

theorem year_header_length (y : Nat) (hy2 : y ≤ 9999) : (year_header y).length = 66 := by
  have h1 := natStr_length_le_four hy2
  have h2 := natStr_length_pos y
  unfold year_header
  simp only [String.length_append, strRepeat_length]
  have hsp : (" " : String).length = 1 := rfl
  rw [hsp]
  omega

/-- C2 (amended): for a year whose months all span at least five week rows
(every year not containing the C1 seven-line defect) and a today outside
that year, the year view is: one 66-column header holding the year at
column 28, then the four rows of three side-by-side 8-line month grids in
January–December order, each row's lines being the line-by-line
concatenation of its three grids (66 characters wide) and each row followed
by one blank line — 37 lines in all. -/
theorem C2_year_view_structure (y : Nat) (t : Date) (hy1 : 1 ≤ y) (hy2 : y ≤ 9999)
    (ht : t.year ≠ y) (h5 : ∀ m, 1 ≤ m → m ≤ 12 → 5 ≤ numWeeks y m) :
    run_year_lines y t = some (year_header y ::
        ((zipConcat (zipConcat (monthGrid y 1 t) (monthGrid y 2 t)) (monthGrid y 3 t) ++ [""])
          ++ (zipConcat (zipConcat (monthGrid y 4 t) (monthGrid y 5 t)) (monthGrid y 6 t)
              ++ [""])
          ++ (zipConcat (zipConcat (monthGrid y 7 t) (monthGrid y 8 t)) (monthGrid y 9 t)
              ++ [""])
          ++ (zipConcat (zipConcat (monthGrid y 10 t) (monthGrid y 11 t)) (monthGrid y 12 t)
              ++ [""])))
      ∧ (∀ m, 1 ≤ m → m ≤ 12 → format_month y m false t = some (monthGrid y m t))
      ∧ (∀ m, 1 ≤ m → m ≤ 12 → (monthGrid y m t).length = 8)
      ∧ (∀ ls, run_year_lines y t = some ls →
          ls.length = 37
            ∧ ls.head? = some (year_header y)
            ∧ (∀ l ∈ ls, l.length = 66 ∨ l = ""))
      ∧ (year_header y).length = 66
      ∧ year_header y
          = strRepeat " " 28 ++ natStr y ++ strRepeat " " (38 - (natStr y).length) := by
  have hg : ∀ m, 1 ≤ m → m ≤ 12 → format_month y m false t = some (monthGrid y m t) := by
    intro m h1 h2
    unfold monthGrid
    rw [format_month_eq y m false t h1 h2]
    rfl
  have hlen8 : ∀ m, 1 ≤ m → m ≤ 12 → (monthGrid y m t).length = 8 := fun m h1 h2 =>
    format_month_length_eight y m false t h1 h2 (h5 m h1 h2) _ (hg m h1 h2)
  have hline : ∀ m, 1 ≤ m → m ≤ 12 → ∀ l ∈ monthGrid y m t, l.length = 22 := fun m h1 h2 =>
    format_month_line_length y m false t hy1 hy2 h1 h2 (fun hc => ht hc.1) _ (hg m h1 h2)
  have hrow : ∀ m1 m2 m3, 1 ≤ m1 → m1 ≤ 12 → 1 ≤ m2 → m2 ≤ 12 → 1 ≤ m3 → m3 ≤ 12 →
      ∀ l ∈ zipConcat (zipConcat (monthGrid y m1 t) (monthGrid y m2 t)) (monthGrid y m3 t),
        l.length = 66 := by
    intro m1 m2 m3 h11 h12 h21 h22 h31 h32 l hl
    obtain ⟨x, hx, z, hz, rfl⟩ := mem_zipConcat hl
    obtain ⟨a, ha, b, hb, rfl⟩ := mem_zipConcat hx
    rw [String.length_append, String.length_append, hline m1 h11 h12 a ha,
      hline m2 h21 h22 b hb, hline m3 h31 h32 z hz]
  have hrl : ∀ m1 m2 m3, 1 ≤ m1 → m1 ≤ 12 → 1 ≤ m2 → m2 ≤ 12 → 1 ≤ m3 → m3 ≤ 12 →
      (zipConcat (zipConcat (monthGrid y m1 t) (monthGrid y m2 t))
        (monthGrid y m3 t)).length = 8 := by
    intro m1 m2 m3 h11 h12 h21 h22 h31 h32
    unfold zipConcat
    rw [List.length_zipWith, List.length_zipWith, hlen8 m1 h11 h12, hlen8 m2 h21 h22,
      hlen8 m3 h31 h32]
    omega
  have hmain : run_year_lines y t = some (year_header y ::
      ((zipConcat (zipConcat (monthGrid y 1 t) (monthGrid y 2 t)) (monthGrid y 3 t) ++ [""])
        ++ (zipConcat (zipConcat (monthGrid y 4 t) (monthGrid y 5 t)) (monthGrid y 6 t)
            ++ [""])
        ++ (zipConcat (zipConcat (monthGrid y 7 t) (monthGrid y 8 t)) (monthGrid y 9 t)
            ++ [""])
        ++ (zipConcat (zipConcat (monthGrid y 10 t) (monthGrid y 11 t)) (monthGrid y 12 t)
            ++ [""]))) := by
    unfold run_year_lines
    rw [show List.range' 1 12 = [1, 2, 3, 4, 5, 6, 7, 8, 9, 10, 11, 12] from rfl]
    simp only [List.mapM_cons, List.mapM_nil,
      hg 1 (by omega) (by omega), hg 2 (by omega) (by omega), hg 3 (by omega) (by omega),
      hg 4 (by omega) (by omega), hg 5 (by omega) (by omega), hg 6 (by omega) (by omega),
      hg 7 (by omega) (by omega), hg 8 (by omega) (by omega), hg 9 (by omega) (by omega),
      hg 10 (by omega) (by omega), hg 11 (by omega) (by omega), hg 12 (by omega) (by omega),
      Option.pure_def, Option.bind_eq_bind, Option.some_bind]
    simp only [chunksOf3, reduceConcat, List.foldl_cons, List.foldl_nil, List.map_cons,
      List.map_nil, List.flatten_cons, List.flatten_nil]
    simp [List.append_assoc]
  refine ⟨hmain, hg, hlen8, ?_, year_header_length y hy2, by norm_num [year_header]⟩
  intro ls hls
  rw [hmain] at hls
  injection hls with hls
  subst hls
  refine ⟨?_, rfl, ?_⟩
  · simp only [List.length_cons, List.length_append, List.length_singleton, List.length_nil,
      hrl 1 2 3 (by omega) (by omega) (by omega) (by omega) (by omega) (by omega),
      hrl 4 5 6 (by omega) (by omega) (by omega) (by omega) (by omega) (by omega),
      hrl 7 8 9 (by omega) (by omega) (by omega) (by omega) (by omega) (by omega),
      hrl 10 11 12 (by omega) (by omega) (by omega) (by omega) (by omega) (by omega)]
  · intro l hl
    rcases List.mem_cons.mp hl with h | h
    · subst h
      exact Or.inl (year_header_length y hy2)
    rcases List.mem_append.mp h with h | h
    · rcases List.mem_append.mp h with h | h
      · rcases List.mem_append.mp h with h | h
        · rcases List.mem_append.mp h with h | h
          · exact Or.inl (hrow 1 2 3 (by omega) (by omega) (by omega) (by omega) (by omega)
              (by omega) l h)
          · rw [List.mem_singleton] at h
            exact Or.inr h
        · rcases List.mem_append.mp h with h | h
          · exact Or.inl (hrow 4 5 6 (by omega) (by omega) (by omega) (by omega) (by omega)
              (by omega) l h)
          · rw [List.mem_singleton] at h
            exact Or.inr h
      · rcases List.mem_append.mp h with h | h
        · exact Or.inl (hrow 7 8 9 (by omega) (by omega) (by omega) (by omega) (by omega)
            (by omega) l h)
        · rw [List.mem_singleton] at h
          exact Or.inr h
    · rcases List.mem_append.mp h with h | h
      · exact Or.inl (hrow 10 11 12 (by omega) (by omega) (by omega) (by omega) (by omega)
          (by omega) l h)
      · rw [List.mem_singleton] at h
        exact Or.inr h

theorem C2_year_view_structure_witness :
    run_year_lines 2020 ⟨1, 1, 1⟩ = some (year_header 2020 ::
        ((zipConcat (zipConcat (monthGrid 2020 1 ⟨1, 1, 1⟩) (monthGrid 2020 2 ⟨1, 1, 1⟩))
            (monthGrid 2020 3 ⟨1, 1, 1⟩) ++ [""])
          ++ (zipConcat (zipConcat (monthGrid 2020 4 ⟨1, 1, 1⟩) (monthGrid 2020 5 ⟨1, 1, 1⟩))
              (monthGrid 2020 6 ⟨1, 1, 1⟩) ++ [""])
          ++ (zipConcat (zipConcat (monthGrid 2020 7 ⟨1, 1, 1⟩) (monthGrid 2020 8 ⟨1, 1, 1⟩))
              (monthGrid 2020 9 ⟨1, 1, 1⟩) ++ [""])
          ++ (zipConcat (zipConcat (monthGrid 2020 10 ⟨1, 1, 1⟩) (monthGrid 2020 11 ⟨1, 1, 1⟩))
              (monthGrid 2020 12 ⟨1, 1, 1⟩) ++ [""]))) :=
  (C2_year_view_structure 2020 ⟨1, 1, 1⟩ (by decide) (by decide) (by decide)
    (fun m h1 h2 => by interval_cases m <;> decide)).1
